import Mathlib

/-!
Shallow embedding of `check_proxies.py` from the aioproxy-check repository.

The embedded parts are:
  - `check_proxy` (lines 71-94): one probe through one proxy; network, TLS,
    timeout and JSON-decode errors are caught and returned as data.  The
    non-deterministic outcome of the network interaction is made explicit as a
    `ProbeEvent` argument.
  - the merge loop of `run_iteration` (lines 120-139), acting on the pair of
    Python dicts `all_ok_proxies` / `bad_proxy_stats`.  Python dicts preserve
    insertion order, so both are modelled as insertion-ordered association
    lists.  `datetime.now()` at merge time is modelled as a timestamp string
    attached to each outcome.
  - the per-iteration percentage computation (lines 141-142), whose division
    by `len(proxy_list)` is modelled as `Option` (`none` = ZeroDivisionError).
  - the driver `main` (lines 154-224): empty-list guard, sequential
    iterations, the `never_ok` classifier, the stable sort by `fail_count`
    descending, and the final success-rate computation, with Python `round`
    (round-half-to-even) modelled on `ℚ`.
-/

namespace AioproxyCheck

/-- Lookup in an insertion-ordered association list; models `d[k]` / `k in d`
for a Python dict (keys are unique by construction, first match wins). -/
def alookup : List (String × α) → String → Option α
  | [], _ => none
  | (k, v) :: rest, q => if q = k then some v else alookup rest q

/-- In-place value update at a key, preserving the key's position; models
`d[k] = f(d[k])` for a key already present in a Python dict. -/
def aupdate : List (String × α) → String → (α → α) → List (String × α)
  | [], _, _ => []
  | (k, v) :: rest, q, f =>
      if q = k then (k, f v) :: rest else (k, v) :: aupdate rest q f

/-- The parsed body of `await response.json()` as far as the script inspects
it: either a JSON object (modelled with string fields, which is all the ipify
contract uses) or any other value already rendered as text (also used for the
error strings produced by the `except` branch). -/
inductive Msg where
  | dict (fields : List (String × String))
  | text (s : String)
deriving DecidableEq, Repr

/-- Python `str()` of a message: a dict renders as `{'k': 'v', ...}`, a text
value renders as itself.  This is what `str(err)` produces at line 138. -/
def Msg.pyStr : Msg → String
  | .dict fs =>
      "\x7b" ++
        String.intercalate ", "
          (fs.map (fun kv => "\x27" ++ kv.1 ++ "\x27: \x27" ++ kv.2 ++ "\x27"))
        ++ "\x7d"
  | .text s => s

/-- The dict returned by `check_proxy`: `{status: bool, message: dict|str,
proxy: str}`. -/
structure CheckResult where
  status : Bool
  message : Msg
  proxy : String
deriving DecidableEq, Repr

/-- The exception classes caught by `check_proxy`'s `except` clause:
`aiohttp.ClientError`, `asyncio.TimeoutError`, `json.JSONDecodeError`,
`ssl.SSLError`. -/
inductive ErrKind where
  | clientError
  | timeoutError
  | jsonDecodeError
  | sslError
deriving DecidableEq, Repr

/-- What the network interaction of one probe did: either the GET completed
and the body parsed (`ok body`), or one of the caught exception classes was
raised with message `m`.  This is the explicit non-determinism parameter of
the embedding of `check_proxy`. -/
inductive ProbeEvent where
  | ok (body : Msg)
  | err (k : ErrKind) (m : String)
deriving DecidableEq, Repr

/-- `check_proxy` (lines 71-94): on a completed request it returns
`{status: True, message: <parsed body>, proxy}`; on any caught exception it
returns `{status: False, message: str(e), proxy}`.  Totality of this function
over `ProbeEvent` is the embedding of "errors are returned as data, never
propagated". -/
def check_proxy (proxy : String) (ev : ProbeEvent) : CheckResult :=
  match ev with
  | .ok body => { status := true, message := body, proxy := proxy }
  | .err _ m => { status := false, message := .text m, proxy := proxy }

/-- One entry of `bad_proxy_stats`:
`{"fail_count": int, "last_error": str, "last_check": str}`. -/
structure FailStats where
  fail_count : Nat
  last_error : String
  last_check : String
deriving DecidableEq, Repr

/-- The cross-iteration aggregate state: the two dicts mutated by
`run_iteration` (`all_ok_proxies : {proxy: [ip, ...]}` and
`bad_proxy_stats : {proxy: FailStats}`), as insertion-ordered assoc lists. -/
structure AggState where
  all_ok_proxies : List (String × List String)
  bad_proxy_stats : List (String × FailStats)
deriving DecidableEq, Repr

/-- The empty aggregate state set up at lines 172-173 of `main`. -/
def initState : AggState := { all_ok_proxies := [], bad_proxy_stats := [] }

/-- The success test at line 122:
`result["status"] and isinstance(result["message"], dict) and "ip" in result["message"]`. -/
def isOk (r : CheckResult) : Bool :=
  r.status &&
    (match r.message with
     | .dict fs => (alookup fs "ip").isSome
     | .text _ => false)

/-- `result["message"]["ip"]` (line 123); only used when `isOk` holds. -/
def ipOf (r : CheckResult) : String :=
  match r.message with
  | .dict fs => (alookup fs "ip").getD ""
  | .text _ => ""

/-- Lines 129-130: append `ip` to the list only when it is not already
present. -/
def updIp (ips : List String) (ip : String) : List String :=
  if ip ∈ ips then ips else ips ++ [ip]

/-- Success branch of the merge loop (lines 126-130): create the entry if the
proxy is new, then append the IP only if it is not already present. -/
def mergeOk (m : List (String × List String)) (p ip : String) :
    List (String × List String) :=
  let m2 := if (alookup m p).isSome then m else m ++ [(p, [])]
  aupdate m2 p (fun ips => updIp ips ip)

/-- Failure branch of the merge loop (lines 135-139): create the zero entry if
the proxy is new, then increment `fail_count` and overwrite `last_error` and
`last_check`. -/
def mergeBad (m : List (String × FailStats)) (p err t : String) :
    List (String × FailStats) :=
  let m2 :=
    if (alookup m p).isSome then m
    else m ++ [(p, { fail_count := 0, last_error := "", last_check := "" })]
  aupdate m2 p
    (fun s => { fail_count := s.fail_count + 1, last_error := err, last_check := t })

/-- One step of the merge loop (lines 120-139) on one outcome; the attached
`String` is the `datetime.now()` value used at line 139 when the outcome is a
failure. -/
def mergeOutcome (st : AggState) (o : CheckResult × String) : AggState :=
  if isOk o.1 then
    { st with all_ok_proxies := mergeOk st.all_ok_proxies o.1.proxy (ipOf o.1) }
  else
    { st with
        bad_proxy_stats :=
          mergeBad st.bad_proxy_stats o.1.proxy (Msg.pyStr o.1.message) o.2 }

/-- The whole merge loop: fold `mergeOutcome` over the results in the order
they are processed (completion order in the script). -/
def mergeAll (st : AggState) (l : List (CheckResult × String)) : AggState :=
  l.foldl mergeOutcome st

/-- `proxy in all_ok_proxies`. -/
def okKey (st : AggState) (p : String) : Bool :=
  (alookup st.all_ok_proxies p).isSome

/-- `all_ok_proxies[p]`, or `[]` when absent. -/
def okIPs (st : AggState) (p : String) : List String :=
  (alookup st.all_ok_proxies p).getD []

/-- Whether `ip` has been observed for `p`. -/
def hasIp (st : AggState) (p ip : String) : Bool :=
  decide (ip ∈ okIPs st p)

/-- `proxy in bad_proxy_stats`. -/
def badKey (st : AggState) (p : String) : Bool :=
  (alookup st.bad_proxy_stats p).isSome

/-- `bad_proxy_stats[p]["fail_count"]`, or `0` when absent. -/
def failCountOf (st : AggState) (p : String) : Nat :=
  match alookup st.bad_proxy_stats p with
  | some s => s.fail_count
  | none => 0

/-- `bad_proxy_stats[p]["last_error"]`, when present. -/
def lastErrorOf (st : AggState) (p : String) : Option String :=
  (alookup st.bad_proxy_stats p).map (fun s => s.last_error)

/-- `run_iteration` (lines 97-151): probe every entry of `proxy_list` (the
event list supplies each probe's network behaviour and merge timestamp),
merge every result, count OKs and BADs, then compute the percentage summary.
The division by `len(proxy_list)` at lines 141-142 has no zero guard, so the
result is `none` (ZeroDivisionError) exactly when the proxy list is empty. -/
def run_iteration (proxy_list : List String)
    (events : List (ProbeEvent × String)) (st : AggState) :
    Option (AggState × Nat × Nat) :=
  let results :=
    (proxy_list.zip events).map (fun pe => (check_proxy pe.1 pe.2.1, pe.2.2))
  let st2 := mergeAll st results
  let oks := (results.filter (fun o => isOk o.1)).length
  let bads := (results.filter (fun o => !isOk o.1)).length
  if proxy_list.length = 0 then none else some (st2, oks, bads)

/-- The sequential iteration loop of `main` (lines 176-179): run each
iteration against the same proxy list, threading the aggregate state and the
running totals; a `none` from any iteration aborts the whole run. -/
def runIterations (proxy_list : List String)
    (plans : List (List (ProbeEvent × String))) (st : AggState)
    (total_oks total_bads : Nat) : Option (AggState × Nat × Nat) :=
  match plans with
  | [] => some (st, total_oks, total_bads)
  | evs :: rest =>
      match run_iteration proxy_list evs st with
      | none => none
      | some (st2, oks, bads) =>
          runIterations proxy_list rest st2 (total_oks + oks) (total_bads + bads)

/-- The `never_ok` dict comprehension (lines 195-199): failure entries whose
proxy never appears in `all_ok_proxies`, in `bad_proxy_stats` insertion
order. -/
def never_ok (st : AggState) : List (String × FailStats) :=
  st.bad_proxy_stats.filter (fun ps => !(alookup st.all_ok_proxies ps.1).isSome)

/-- The comparison used by `sorted(..., key=lambda x: x[1]["fail_count"],
reverse=True)`: `a` may stay before `b` iff its fail count is at least
`b`'s. -/
def failGE (a b : String × FailStats) : Prop :=
  b.2.fail_count ≤ a.2.fail_count

instance : DecidableRel failGE := fun a b => Nat.decLe b.2.fail_count a.2.fail_count

instance : IsTotal (String × FailStats) failGE :=
  ⟨fun a b => Nat.le_total b.2.fail_count a.2.fail_count⟩

instance : IsTrans (String × FailStats) failGE :=
  ⟨fun _ _ _ h1 h2 => Nat.le_trans h2 h1⟩

/-- Python `sorted` is stable; with `key=fail_count, reverse=True` it produces
exactly a stable sort by fail count descending, here realised as an insertion
sort with relation `failGE` (lines 201-205). -/
def sortByFailsDesc (l : List (String × FailStats)) : List (String × FailStats) :=
  l.insertionSort failGE

/-- The never-working partition as written to `bad_proxies.txt`
(lines 195-209): `never_ok` sorted by fail count descending, ties keeping
`bad_proxy_stats` insertion order (Python sort stability). -/
def neverWorkingSorted (st : AggState) : List (String × FailStats) :=
  sortByFailsDesc (never_ok st)

/-- Lexicographic comparison of character lists by code point: the order
Python uses on strings.  Spec-side helper for stating the claimed tie-break
order of the never-working output. -/
def charListLt : List Char → List Char → Bool
  | [], [] => false
  | [], _ :: _ => true
  | _ :: _, [] => false
  | c :: cs, d :: ds =>
      if c.toNat < d.toNat then true
      else if c.toNat = d.toNat then charListLt cs ds else false

/-- `a <= b` on strings in Python's code-point order. -/
def strLeB (a b : String) : Bool :=
  a == b || charListLt a.data b.data

/-- Modelled from the spec's words, for comparison with the code's output
order: "ordered by failCount descending, ties broken by natural key order —
proxy string".  Holds of a list iff every later entry has a strictly smaller
fail count or an equal fail count and a proxy string not below the earlier
entry's. -/
def specClaimOrdered : List (String × FailStats) → Bool
  | [] => true
  | a :: rest =>
      rest.all (fun b =>
        decide (b.2.fail_count < a.2.fail_count) ||
          (decide (a.2.fail_count = b.2.fail_count) && strLeB a.1 b.1)) &&
      specClaimOrdered rest

/-- Python `round` on a rational: round to the nearest integer, ties to the
even integer (banker's rounding), applied at lines 141-142 and 213. -/
def pyRound (q : ℚ) : ℤ :=
  if q - ⌊q⌋ < 1/2 then ⌊q⌋
  else if 1/2 < q - ⌊q⌋ then ⌊q⌋ + 1
  else if ⌊q⌋ % 2 = 0 then ⌊q⌋ else ⌊q⌋ + 1

/-- Line 213: `round(total_oks / total_checks * 100) if total_checks else 0`.
The real script computes in binary floating point; the embedding uses exact
rationals. -/
def success_rate (total_oks total_bads : Nat) : ℤ :=
  let total_checks := total_oks + total_bads
  if total_checks = 0 then 0
  else pyRound ((total_oks : ℚ) / (total_checks : ℚ) * 100)

/-- The data `main` emits after the loop: final aggregate state, totals, the
never-working partition, and the success rate. -/
structure Report where
  final : AggState
  total_oks : Nat
  total_bads : Nat
  neverWorking : List (String × FailStats)
  rate : ℤ
deriving Repr

/-- `main` (lines 154-224) after the proxy file has been read: abort (`none`)
when the loaded list is empty (lines 164-166), otherwise run all iterations
from the empty state and build the final report. -/
def main_model (proxy_list : List String)
    (plans : List (List (ProbeEvent × String))) : Option Report :=
  if proxy_list.isEmpty then none
  else
    match runIterations proxy_list plans initState 0 0 with
    | none => none
    | some (st, total_oks, total_bads) =>
        some { final := st, total_oks := total_oks, total_bads := total_bads,
               neverWorking := neverWorkingSorted st,
               rate := success_rate total_oks total_bads }

/-! ### Association-list lemmas -/

theorem alookup_append_single (l : List (String × α)) (p q : String) (v : α) :
    alookup (l ++ [(p, v)]) q =
      match alookup l q with
      | some w => some w
      | none => if q = p then some v else none := by
  induction l with
  | nil => simp [alookup]
  | cons kv rest ih =>
      by_cases h : q = kv.1
      · simp [alookup, h]
      · simpa [alookup, h] using ih

theorem alookup_aupdate (l : List (String × α)) (p q : String) (f : α → α) :
    alookup (aupdate l p f) q =
      if q = p then (alookup l p).map f else alookup l q := by
  induction l with
  | nil => simp [alookup, aupdate]
  | cons kv rest ih =>
      by_cases hp : p = kv.1
      · by_cases hq : q = kv.1 <;> simp [alookup, aupdate, hp, hq]
      · by_cases hq : q = kv.1
        · simp [alookup, aupdate, hp, hq, Ne.symm hp]
        · simpa [alookup, aupdate, hp, hq] using ih

theorem aupdate_eq_self (l : List (String × α)) (p : String) (f : α → α) (v : α)
    (hv : alookup l p = some v) (hf : f v = v) : aupdate l p f = l := by
  induction l with
  | nil => simp [aupdate]
  | cons kv rest ih =>
      by_cases hp : p = kv.1
      · simp [alookup, hp] at hv
        simp [aupdate, hp, hv ▸ hf]
      · simp [alookup, hp] at hv
        simp [aupdate, hp, ih hv]

/-! ### Lookup after one merge step -/

theorem alookup_mergeOk (m : List (String × List String)) (p ip q : String) :
    alookup (mergeOk m p ip) q =
      if q = p then some (updIp ((alookup m p).getD []) ip) else alookup m q := by
  by_cases hq : q = p <;> cases h : alookup m p <;> cases h2 : alookup m q <;>
    simp_all [mergeOk, alookup_aupdate, alookup_append_single]

theorem alookup_mergeBad (m : List (String × FailStats)) (p e t q : String) :
    alookup (mergeBad m p e t) q =
      if q = p then
        some { fail_count :=
                 ((alookup m p).getD
                    { fail_count := 0, last_error := "", last_check := "" }).fail_count + 1,
               last_error := e, last_check := t }
      else alookup m q := by
  by_cases hq : q = p <;> cases h : alookup m p <;> cases h2 : alookup m q <;>
    simp_all [mergeBad, alookup_aupdate, alookup_append_single]

theorem mem_updIp (ips : List String) (x y : String) :
    y ∈ updIp ips x ↔ y ∈ ips ∨ y = x := by
  unfold updIp
  by_cases h : x ∈ ips
  · simp only [h, if_true]
    constructor
    · exact Or.inl
    · rintro (hy | rfl)
      · exact hy
      · exact h
  · simp [h]

theorem beq_comm_str (a b : String) : (a == b) = decide (b = a) := by
  rw [Bool.eq_iff_iff, beq_iff_eq, decide_eq_true_iff]
  exact eq_comm

/-! ### One merge step: effect on the observables -/

theorem okKey_mergeOutcome (st : AggState) (o : CheckResult × String) (p : String) :
    okKey (mergeOutcome st o) p = (okKey st p || (isOk o.1 && o.1.proxy == p)) := by
  unfold mergeOutcome okKey
  by_cases h : isOk o.1
  · by_cases hq : p = o.1.proxy <;>
      simp [h, alookup_mergeOk, hq, Ne.symm, beq_iff_eq]
  · simp [h]

theorem hasIp_mergeOutcome (st : AggState) (o : CheckResult × String) (p ip : String) :
    hasIp (mergeOutcome st o) p ip =
      (hasIp st p ip || (isOk o.1 && o.1.proxy == p && ipOf o.1 == ip)) := by
  unfold mergeOutcome hasIp okIPs
  by_cases h : isOk o.1
  · by_cases hq : p = o.1.proxy
    · subst hq
      cases h2 : alookup st.all_ok_proxies o.1.proxy <;>
        simp [h, alookup_mergeOk, mem_updIp, h2, beq_iff_eq] <;>
        rw [beq_comm_str]
    · simp [h, alookup_mergeOk, hq, Ne.symm, beq_iff_eq]
  · simp [h]

theorem badKey_mergeOutcome (st : AggState) (o : CheckResult × String) (p : String) :
    badKey (mergeOutcome st o) p = (badKey st p || (!isOk o.1 && o.1.proxy == p)) := by
  unfold mergeOutcome badKey
  by_cases h : isOk o.1
  · simp [h]
  · by_cases hq : p = o.1.proxy <;>
      simp [h, alookup_mergeBad, hq, Ne.symm, beq_iff_eq]

theorem failCountOf_mergeOutcome (st : AggState) (o : CheckResult × String) (p : String) :
    failCountOf (mergeOutcome st o) p =
      failCountOf st p + (if !isOk o.1 && o.1.proxy == p then 1 else 0) := by
  unfold mergeOutcome failCountOf
  by_cases h : isOk o.1
  · simp [h]
  · by_cases hq : p = o.1.proxy
    · subst hq
      cases h2 : alookup st.bad_proxy_stats o.1.proxy <;>
        simp [h, alookup_mergeBad, beq_iff_eq, h2]
    · simp [h, alookup_mergeBad, hq, Ne.symm, beq_iff_eq]

/-! ### Whole-run characterisation of the observables -/

theorem okKey_mergeAll (l : List (CheckResult × String)) (st : AggState) (p : String) :
    okKey (mergeAll st l) p =
      (okKey st p || l.any (fun o => isOk o.1 && o.1.proxy == p)) := by
  induction l generalizing st with
  | nil => simp [mergeAll]
  | cons o rest ih =>
      show okKey (mergeAll (mergeOutcome st o) rest) p = _
      rw [ih, okKey_mergeOutcome]
      simp [Bool.or_assoc]

theorem hasIp_mergeAll (l : List (CheckResult × String)) (st : AggState) (p ip : String) :
    hasIp (mergeAll st l) p ip =
      (hasIp st p ip ||
        l.any (fun o => isOk o.1 && o.1.proxy == p && ipOf o.1 == ip)) := by
  induction l generalizing st with
  | nil => simp [mergeAll]
  | cons o rest ih =>
      show hasIp (mergeAll (mergeOutcome st o) rest) p ip = _
      rw [ih, hasIp_mergeOutcome]
      simp [Bool.or_assoc]

theorem badKey_mergeAll (l : List (CheckResult × String)) (st : AggState) (p : String) :
    badKey (mergeAll st l) p =
      (badKey st p || l.any (fun o => !isOk o.1 && o.1.proxy == p)) := by
  induction l generalizing st with
  | nil => simp [mergeAll]
  | cons o rest ih =>
      show badKey (mergeAll (mergeOutcome st o) rest) p = _
      rw [ih, badKey_mergeOutcome]
      simp [Bool.or_assoc]

theorem failCountOf_mergeAll (l : List (CheckResult × String)) (st : AggState) (p : String) :
    failCountOf (mergeAll st l) p =
      failCountOf st p + l.countP (fun o => !isOk o.1 && o.1.proxy == p) := by
  induction l generalizing st with
  | nil => simp [mergeAll]
  | cons o rest ih =>
      show failCountOf (mergeAll (mergeOutcome st o) rest) p = _
      rw [ih, failCountOf_mergeOutcome, List.countP_cons]
      omega

theorem any_eq_of_perm {l₁ l₂ : List α} (h : l₁.Perm l₂) (f : α → Bool) :
    l₁.any f = l₂.any f := by
  rw [Bool.eq_iff_iff]
  simp only [List.any_eq_true]
  constructor <;> rintro ⟨x, hx, hf⟩
  · exact ⟨x, h.mem_iff.mp hx, hf⟩
  · exact ⟨x, h.mem_iff.mpr hx, hf⟩

/-! ### The stable sort of the never-working partition -/

theorem perm_sortByFailsDesc (l : List (String × FailStats)) :
    (sortByFailsDesc l).Perm l :=
  List.perm_insertionSort failGE l

theorem mem_sortByFailsDesc (x : String × FailStats) (l : List (String × FailStats)) :
    x ∈ sortByFailsDesc l ↔ x ∈ l :=
  (perm_sortByFailsDesc l).mem_iff

theorem pairwise_sortByFailsDesc (l : List (String × FailStats)) :
    (sortByFailsDesc l).Pairwise failGE :=
  List.sorted_insertionSort failGE l

theorem filter_orderedInsert_of_eq (x : String × FailStats)
    (l : List (String × FailStats)) (c : Nat) (hx : x.2.fail_count = c) :
    (List.orderedInsert failGE x l).filter (fun e => decide (e.2.fail_count = c)) =
      x :: l.filter (fun e => decide (e.2.fail_count = c)) := by
  induction l with
  | nil => simp [List.orderedInsert, hx]
  | cons b rest ih =>
      by_cases hr : failGE x b
      · simp [List.orderedInsert, hr, hx]
      · have hb : ¬b.2.fail_count = c := by
          unfold failGE at hr
          omega
        simp [List.orderedInsert, hr, hb, ih]

theorem filter_orderedInsert_of_ne (x : String × FailStats)
    (l : List (String × FailStats)) (c : Nat) (hx : ¬x.2.fail_count = c) :
    (List.orderedInsert failGE x l).filter (fun e => decide (e.2.fail_count = c)) =
      l.filter (fun e => decide (e.2.fail_count = c)) := by
  induction l with
  | nil => simp [List.orderedInsert, hx]
  | cons b rest ih =>
      by_cases hr : failGE x b
      · simp [List.orderedInsert, hr, hx]
      · simp only [List.orderedInsert, if_neg hr]
        rw [List.filter_cons, List.filter_cons, ih]

/-- Stability of the sort: the elements carrying any given fail count appear
in the output in exactly their input order. -/
theorem filter_sortByFailsDesc (l : List (String × FailStats)) (c : Nat) :
    (sortByFailsDesc l).filter (fun e => decide (e.2.fail_count = c)) =
      l.filter (fun e => decide (e.2.fail_count = c)) := by
  induction l with
  | nil => rfl
  | cons a rest ih =>
      show (List.orderedInsert failGE a (sortByFailsDesc rest)).filter _ = _
      by_cases ha : a.2.fail_count = c
      · rw [filter_orderedInsert_of_eq a _ c ha, ih]
        simp [ha]
      · rw [filter_orderedInsert_of_ne a _ c ha, ih]
        simp [ha]

/-! ### Rounding -/

theorem pyRound_nearest (q : ℚ) : |(pyRound q : ℚ) - q| ≤ 1/2 := by
  have h1 : (⌊q⌋ : ℚ) ≤ q := Int.floor_le q
  have h2 : q < ⌊q⌋ + 1 := Int.lt_floor_add_one q
  unfold pyRound
  split_ifs <;> rw [abs_le] <;> constructor <;> push_cast <;> linarith

/-! ### Iteration plumbing -/

theorem run_iteration_nil (events : List (ProbeEvent × String)) (st : AggState) :
    run_iteration [] events st = none := rfl

theorem run_iteration_isSome (pl : List String) (events : List (ProbeEvent × String))
    (st : AggState) (h : pl ≠ []) : (run_iteration pl events st).isSome = true := by
  unfold run_iteration
  simp [List.length_eq_zero, h]

theorem runIterations_isSome (pl : List String)
    (plans : List (List (ProbeEvent × String))) (st : AggState)
    (total_oks total_bads : Nat) (h : pl ≠ []) :
    (runIterations pl plans st total_oks total_bads).isSome = true := by
  induction plans generalizing st total_oks total_bads with
  | nil => rfl
  | cons evs rest ih =>
      unfold runIterations
      cases hri : run_iteration pl evs st with
      | none =>
          have := run_iteration_isSome pl evs st h
          rw [hri] at this
          cases this
      | some v => exact ih v.1 (total_oks + v.2.1) (total_bads + v.2.2)

theorem main_model_isSome (pl : List String)
    (plans : List (List (ProbeEvent × String))) (h : pl ≠ []) :
    (main_model pl plans).isSome = true := by
  obtain ⟨a, t, rfl⟩ := List.exists_cons_of_ne_nil h
  unfold main_model
  cases hri : runIterations (a :: t) plans initState 0 0 with
  | none =>
      have := runIterations_isSome (a :: t) plans initState 0 0 h
      rw [hri] at this
      cases this
  | some v => simp [hri]

/-! ### Claim theorems -/

/-- Claim C1, counterexample: two failure outcomes for the same proxy with
different error strings form one multiset, yet merging them in the two
possible orders yields different final states (the `last_error` and
`last_check` fields keep whichever outcome was merged last). -/
theorem c1_counterexample :
    ([((⟨false, .text "e1", "p"⟩ : CheckResult), "t1"),
      ((⟨false, .text "e2", "p"⟩ : CheckResult), "t2")]).Perm
      [((⟨false, .text "e2", "p"⟩ : CheckResult), "t2"),
       ((⟨false, .text "e1", "p"⟩ : CheckResult), "t1")] ∧
    mergeAll initState
        [(⟨false, .text "e1", "p"⟩, "t1"), (⟨false, .text "e2", "p"⟩, "t2")] ≠
      mergeAll initState
        [(⟨false, .text "e2", "p"⟩, "t2"), (⟨false, .text "e1", "p"⟩, "t1")] := by
  constructor
  · exact List.Perm.swap _ _ _
  · decide

/-- Claim C1, amended: applying the same multiset of outcomes in any order
yields final states that agree on the success-map keys, on every proxy's set
of observed IPs, on the failure-map keys and on every proxy's `fail_count`;
the failure records' `last_error` and `last_check` (and the insertion order
of keys and IP lists) may depend on the order. -/
theorem c1_merge_perm_invariant (l1 l2 : List (CheckResult × String))
    (h : l1.Perm l2) (p ip : String) :
    okKey (mergeAll initState l1) p = okKey (mergeAll initState l2) p ∧
    hasIp (mergeAll initState l1) p ip = hasIp (mergeAll initState l2) p ip ∧
    badKey (mergeAll initState l1) p = badKey (mergeAll initState l2) p ∧
    failCountOf (mergeAll initState l1) p = failCountOf (mergeAll initState l2) p := by
  refine ⟨?_, ?_, ?_, ?_⟩
  · rw [okKey_mergeAll, okKey_mergeAll, any_eq_of_perm h]
  · rw [hasIp_mergeAll, hasIp_mergeAll, any_eq_of_perm h]
  · rw [badKey_mergeAll, badKey_mergeAll, any_eq_of_perm h]
  · rw [failCountOf_mergeAll, failCountOf_mergeAll, h.countP_eq]

/-- Claim C1, witness for the amended theorem at a concrete permutation. -/
theorem c1_merge_perm_invariant_witness :
    okKey (mergeAll initState
        [(⟨true, .dict [("ip", "1.2.3.4")], "p1"⟩, "t1"),
         (⟨false, .text "boom", "p2"⟩, "t2")]) "p1" =
      okKey (mergeAll initState
        [(⟨false, .text "boom", "p2"⟩, "t2"),
         (⟨true, .dict [("ip", "1.2.3.4")], "p1"⟩, "t1")]) "p1" ∧
    hasIp (mergeAll initState
        [(⟨true, .dict [("ip", "1.2.3.4")], "p1"⟩, "t1"),
         (⟨false, .text "boom", "p2"⟩, "t2")]) "p1" "1.2.3.4" =
      hasIp (mergeAll initState
        [(⟨false, .text "boom", "p2"⟩, "t2"),
         (⟨true, .dict [("ip", "1.2.3.4")], "p1"⟩, "t1")]) "p1" "1.2.3.4" ∧
    badKey (mergeAll initState
        [(⟨true, .dict [("ip", "1.2.3.4")], "p1"⟩, "t1"),
         (⟨false, .text "boom", "p2"⟩, "t2")]) "p1" =
      badKey (mergeAll initState
        [(⟨false, .text "boom", "p2"⟩, "t2"),
         (⟨true, .dict [("ip", "1.2.3.4")], "p1"⟩, "t1")]) "p1" ∧
    failCountOf (mergeAll initState
        [(⟨true, .dict [("ip", "1.2.3.4")], "p1"⟩, "t1"),
         (⟨false, .text "boom", "p2"⟩, "t2")]) "p1" =
      failCountOf (mergeAll initState
        [(⟨false, .text "boom", "p2"⟩, "t2"),
         (⟨true, .dict [("ip", "1.2.3.4")], "p1"⟩, "t1")]) "p1" :=
  c1_merge_perm_invariant _ _ (List.Perm.swap _ _ _) "p1" "1.2.3.4"

/-- Claim C2: a proxy that is a key of the success map `all_ok_proxies`
(in particular any proxy with at least one success outcome in the run) never
appears in the never-working partition, no matter how many failures it also
accumulated. -/
theorem c2_success_absent_from_neverWorking (l : List (CheckResult × String))
    (p : String) (h : ∃ o ∈ l, isOk o.1 = true ∧ o.1.proxy = p) :
    okKey (mergeAll initState l) p = true ∧
    (neverWorkingSorted (mergeAll initState l)).all (fun e => e.1 != p) = true := by
  have hk : okKey (mergeAll initState l) p = true := by
    rw [okKey_mergeAll]
    rcases h with ⟨o, ho, hok, hp⟩
    have ha : (l.any fun o => isOk o.1 && o.1.proxy == p) = true := by
      rw [List.any_eq_true]
      exact ⟨o, ho, by simp [hok, hp]⟩
    simp [ha]
  refine ⟨hk, ?_⟩
  rw [List.all_eq_true]
  intro e he
  rw [neverWorkingSorted, mem_sortByFailsDesc, never_ok, List.mem_filter] at he
  have h2 := he.2
  rw [bne_iff_ne]
  intro hep
  rw [hep] at h2
  rw [okKey] at hk
  simp [hk] at h2

/-- Claim C2, witness: `p1` succeeds once and fails once, `p2` always fails;
`p1` is a success key and is absent from the never-working output. -/
theorem c2_success_absent_from_neverWorking_witness :
    okKey (mergeAll initState
        [(⟨true, .dict [("ip", "1.2.3.4")], "p1"⟩, "t1"),
         (⟨false, .text "boom", "p1"⟩, "t2"),
         (⟨false, .text "down", "p2"⟩, "t3")]) "p1" = true ∧
    (neverWorkingSorted (mergeAll initState
        [(⟨true, .dict [("ip", "1.2.3.4")], "p1"⟩, "t1"),
         (⟨false, .text "boom", "p1"⟩, "t2"),
         (⟨false, .text "down", "p2"⟩, "t3")])).all (fun e => e.1 != "p1") = true :=
  c2_success_absent_from_neverWorking _ "p1"
    ⟨(⟨true, .dict [("ip", "1.2.3.4")], "p1"⟩, "t1"), by simp, by decide, rfl⟩

/-- Claim C3, counterexample: proxies `b` and `a` both fail once, `b` first;
both tie on `fail_count`, yet the emitted order is `b` before `a` (the
failure map's insertion order), which violates the claimed tie-break by
natural proxy-string order. -/
theorem c3_counterexample :
    neverWorkingSorted (mergeAll initState
        [(⟨false, .text "e", "b"⟩, "t"), (⟨false, .text "e", "a"⟩, "t")]) =
      [("b", ⟨1, "e", "t"⟩), ("a", ⟨1, "e", "t"⟩)] ∧
    specClaimOrdered (neverWorkingSorted (mergeAll initState
        [(⟨false, .text "e", "b"⟩, "t"), (⟨false, .text "e", "a"⟩, "t")])) = false := by
  constructor
  · decide
  · decide

/-- Claim C3, amended: the never-working partition consists exactly of the
failure-record entries whose proxy is not a success-map key; it is ordered by
`fail_count` descending, and entries with equal `fail_count` keep the failure
map's insertion order (first-failure order) — Python's stable sort — rather
than the natural order of the proxy string, so the output order also depends
on the order in which proxies first failed, not on the final maps alone. -/
theorem c3_neverWorking_characterisation (st : AggState) :
    (∀ e, e ∈ neverWorkingSorted st ↔
        e ∈ st.bad_proxy_stats ∧ (alookup st.all_ok_proxies e.1).isSome = false) ∧
    (neverWorkingSorted st).Pairwise failGE ∧
    (∀ c, (neverWorkingSorted st).filter (fun e => decide (e.2.fail_count = c)) =
        (never_ok st).filter (fun e => decide (e.2.fail_count = c))) := by
  refine ⟨?_, pairwise_sortByFailsDesc (never_ok st), fun c => filter_sortByFailsDesc _ c⟩
  intro e
  rw [neverWorkingSorted, mem_sortByFailsDesc, never_ok, List.mem_filter]
  simp

/-- Claim C4: a probe whose request completes and whose body parses as a JSON
object without an `ip` field is classified as a failure, and after merging
that outcome the proxy's `last_error` is the Python stringification of the
parsed body itself, not a generic message. -/
theorem c4_missing_ip_field (p t : String) (fields : List (String × String))
    (st : AggState) (h : alookup fields "ip" = none) :
    isOk (check_proxy p (.ok (.dict fields))) = false ∧
    lastErrorOf (mergeOutcome st (check_proxy p (.ok (.dict fields)), t)) p =
      some (Msg.pyStr (.dict fields)) := by
  have hok : isOk (check_proxy p (.ok (.dict fields))) = false := by
    simp [isOk, check_proxy, h]
  refine ⟨hok, ?_⟩
  unfold mergeOutcome
  rw [hok]
  simp only [Bool.false_eq_true, if_false]
  unfold lastErrorOf
  rw [show (check_proxy p (.ok (.dict fields))).proxy = p from rfl]
  rw [alookup_mergeBad]
  simp [check_proxy]

/-- Claim C4, witness: body `{'error': 'no ip'}` gives a failure whose stored
`last_error` is `"{'error': 'no ip'}"`. -/
theorem c4_missing_ip_field_witness :
    alookup [("error", "no ip")] "ip" = none ∧
    (isOk (check_proxy "p1" (.ok (.dict [("error", "no ip")]))) = false ∧
      lastErrorOf (mergeOutcome initState
          (check_proxy "p1" (.ok (.dict [("error", "no ip")])), "t")) "p1" =
        some (Msg.pyStr (.dict [("error", "no ip")]))) :=
  ⟨by decide, c4_missing_ip_field "p1" "t" [("error", "no ip")] initState (by decide)⟩

/-- Claim C5: every caught error event is converted by `check_proxy` into a
failure result carrying the stringified error as data (never an exception in
the embedding, which is total over the caught error domain), and an iteration
over a non-empty proxy list always completes, producing a state and OK/BAD
counts that account for every probe. -/
theorem c5_errors_returned_as_data (p m : String) (k : ErrKind)
    (pl : List String) (events : List (ProbeEvent × String)) (st : AggState) :
    check_proxy p (.err k m) =
      { status := false, message := .text m, proxy := p } ∧
    (pl ≠ [] → ∃ st2 oks bads,
      run_iteration pl events st = some (st2, oks, bads) ∧
        oks + bads = (pl.zip events).length) := by
  refine ⟨rfl, fun h => ?_⟩
  have hne : ¬pl.length = 0 := by simpa [List.length_eq_zero] using h
  have heq : run_iteration pl events st =
      some (mergeAll st
              ((pl.zip events).map (fun pe => (check_proxy pe.1 pe.2.1, pe.2.2))),
            (((pl.zip events).map (fun pe => (check_proxy pe.1 pe.2.1, pe.2.2))).filter
                (fun o => isOk o.1)).length,
            (((pl.zip events).map (fun pe => (check_proxy pe.1 pe.2.1, pe.2.2))).filter
                (fun o => !isOk o.1)).length) := by
    simp only [run_iteration]
    rw [if_neg hne]
  refine ⟨_, _, _, heq, ?_⟩
  rw [← List.length_map (pl.zip events)
      (fun pe => (check_proxy pe.1 pe.2.1, pe.2.2))]
  exact (List.length_eq_length_filter_add _).symm

/-- Claim C5, witness at a timeout error and a one-proxy iteration. -/
theorem c5_errors_returned_as_data_witness :
    check_proxy "p1" (.err .timeoutError "timed out") =
      { status := false, message := .text "timed out", proxy := "p1" } ∧
    ∃ st2 oks bads,
      run_iteration ["p1"]
          [((ProbeEvent.err .timeoutError "timed out" : ProbeEvent), "t")] initState =
          some (st2, oks, bads) ∧
        oks + bads =
          ((["p1"].zip
            [((ProbeEvent.err .timeoutError "timed out" : ProbeEvent), "t")])).length :=
  ⟨(c5_errors_returned_as_data "p1" "timed out" .timeoutError ["p1"]
      [(ProbeEvent.err .timeoutError "timed out", "t")] initState).1,
   (c5_errors_returned_as_data "p1" "timed out" .timeoutError ["p1"]
      [(ProbeEvent.err .timeoutError "timed out", "t")] initState).2 (by decide)⟩

/-- Claim C6: the final `fail_count` of a proxy equals exactly the number of
failure outcomes observed for it (each failing outcome increments by one,
none lost, none double-counted), and merging iteration after iteration is the
same as merging the concatenation of their outcome lists, so the count ranges
over all iterations. -/
theorem c6_failCount_exact (l : List (CheckResult × String)) (p : String) :
    failCountOf (mergeAll initState l) p =
      (l.filter (fun o => !isOk o.1 && o.1.proxy == p)).length ∧
    ∀ (st : AggState) (l1 l2 : List (CheckResult × String)),
      mergeAll (mergeAll st l1) l2 = mergeAll st (l1 ++ l2) := by
  constructor
  · rw [failCountOf_mergeAll, List.countP_eq_length_filter]
    simp [failCountOf, initState, alookup]
  · intro st l1 l2
    exact (List.foldl_append _ _ _ _).symm

/-- Claim C7: merging a success outcome whose observed IP is already recorded
for its proxy leaves the aggregate state entirely unchanged. -/
theorem c7_duplicate_ip_idempotent (st : AggState) (r : CheckResult) (t : String)
    (hok : isOk r = true) (hmem : ipOf r ∈ okIPs st r.proxy) :
    mergeOutcome st (r, t) = st := by
  unfold mergeOutcome
  simp only [hok, if_true]
  cases h2 : alookup st.all_ok_proxies r.proxy with
  | none =>
      rw [okIPs, h2] at hmem
      simp at hmem
  | some ips =>
      have hm : ipOf r ∈ ips := by
        rw [okIPs, h2] at hmem
        simpa using hmem
      unfold mergeOk
      rw [h2]
      simp only [Option.isSome_some, if_true]
      rw [aupdate_eq_self _ _ _ ips h2 (by simp [updIp, hm])]

/-- Claim C7, witness: the same proxy probed twice, both succeeding with IP
9.9.9.9 — the second merge is a no-op and the final IP list holds exactly one
entry. -/
theorem c7_duplicate_ip_idempotent_witness :
    mergeAll initState
        [(⟨true, .dict [("ip", "9.9.9.9")], "p1"⟩, "t"),
         (⟨true, .dict [("ip", "9.9.9.9")], "p1"⟩, "t")] =
      mergeAll initState [(⟨true, .dict [("ip", "9.9.9.9")], "p1"⟩, "t")] ∧
    okIPs (mergeAll initState
        [(⟨true, .dict [("ip", "9.9.9.9")], "p1"⟩, "t"),
         (⟨true, .dict [("ip", "9.9.9.9")], "p1"⟩, "t")]) "p1" = ["9.9.9.9"] := by
  refine ⟨?_, by decide⟩
  have h := c7_duplicate_ip_idempotent
    (mergeAll initState [(⟨true, .dict [("ip", "9.9.9.9")], "p1"⟩, "t")])
    ⟨true, .dict [("ip", "9.9.9.9")], "p1"⟩ "t" (by decide) (by decide)
  simpa [mergeAll] using h

/-- Claim C8: the aggregate success rate is computed as total successes
divided by total checks, times 100, rounded to the nearest whole percent
(within 1/2 of the exact percentage), and with zero total checks it is 0
rather than a division-by-zero error. -/
theorem c8_success_rate (total_oks total_bads : Nat)
    (h : ¬total_oks + total_bads = 0) :
    success_rate 0 0 = 0 ∧
    success_rate total_oks total_bads =
      pyRound ((total_oks : ℚ) / (((total_oks + total_bads : ℕ)) : ℚ) * 100) ∧
    |(success_rate total_oks total_bads : ℚ) -
        (total_oks : ℚ) / (((total_oks + total_bads : ℕ)) : ℚ) * 100| ≤ 1/2 := by
  have he : success_rate total_oks total_bads =
      pyRound ((total_oks : ℚ) / (((total_oks + total_bads : ℕ)) : ℚ) * 100) := by
    simp only [success_rate, if_neg h]
  exact ⟨rfl, he, he ▸ pyRound_nearest _⟩

/-- Claim C8, witness at 1 success / 2 failures (rate 33). -/
theorem c8_success_rate_witness :
    success_rate 0 0 = 0 ∧
    success_rate 1 2 = pyRound ((1 : ℚ) / (((1 + 2 : ℕ)) : ℚ) * 100) ∧
    |(success_rate 1 2 : ℚ) - (1 : ℚ) / (((1 + 2 : ℕ)) : ℚ) * 100| ≤ 1/2 :=
  c8_success_rate 1 2 (by decide)

/-- Claim C9: `run_iteration` divides by the proxy-list length with no zero
guard — it is well-defined (`some`) for every non-empty proxy list and
raises ZeroDivisionError (modelled `none`) on the empty list; the driver
establishes the precondition by aborting (`none`) on an empty loaded list
before any iteration, and for non-empty lists always completes (`some`). -/
theorem c9_zero_division_guard (events : List (ProbeEvent × String)) (st : AggState)
    (pl : List String) (plans : List (List (ProbeEvent × String)))
    (h : pl ≠ []) :
    run_iteration [] events st = none ∧
    (run_iteration pl events st).isSome = true ∧
    main_model [] plans = none ∧
    (main_model pl plans).isSome = true :=
  ⟨run_iteration_nil events st, run_iteration_isSome pl events st h,
   rfl, main_model_isSome pl plans h⟩

/-- Claim C9, witness with a one-proxy list. -/
theorem c9_zero_division_guard_witness :
    run_iteration [] [] initState = none ∧
    (run_iteration ["p1"] [] initState).isSome = true ∧
    main_model [] [] = none ∧
    (main_model ["p1"] [] ).isSome = true :=
  c9_zero_division_guard [] initState ["p1"] [] (by decide)

/-- Claim C10: one merge step only touches the record of the outcome's own
proxy on the matching side — every other proxy's entry in either map is
unchanged, a success outcome leaves the failure map untouched, and a failure
outcome leaves the success map untouched. -/
theorem c10_merge_frame (st : AggState) (r : CheckResult) (t q : String)
    (hq : q ≠ r.proxy) :
    alookup (mergeOutcome st (r, t)).all_ok_proxies q = alookup st.all_ok_proxies q ∧
    alookup (mergeOutcome st (r, t)).bad_proxy_stats q = alookup st.bad_proxy_stats q ∧
    (isOk r = true →
      (mergeOutcome st (r, t)).bad_proxy_stats = st.bad_proxy_stats) ∧
    (isOk r = false →
      (mergeOutcome st (r, t)).all_ok_proxies = st.all_ok_proxies) := by
  unfold mergeOutcome
  by_cases h : isOk r
  · simp [h, alookup_mergeOk, hq]
  · simp [h, alookup_mergeBad, hq]

/-- Claim C10, witness: a success outcome for `p1` leaves the whole failure
map and `p2`'s success entry unchanged. -/
theorem c10_merge_frame_witness :
    alookup (mergeOutcome
        (AggState.mk [("p2", ["7.7.7.7"])] [("p2", ⟨1, "e", "t0"⟩)])
        (⟨true, .dict [("ip", "1.2.3.4")], "p1"⟩, "t")).all_ok_proxies "p2" =
      alookup [("p2", ["7.7.7.7"])] "p2" ∧
    (mergeOutcome (AggState.mk [("p2", ["7.7.7.7"])] [("p2", ⟨1, "e", "t0"⟩)])
        (⟨true, .dict [("ip", "1.2.3.4")], "p1"⟩, "t")).bad_proxy_stats =
      [("p2", ⟨1, "e", "t0"⟩)] := by
  have h := c10_merge_frame
    (AggState.mk [("p2", ["7.7.7.7"])] [("p2", ⟨1, "e", "t0"⟩)])
    ⟨true, .dict [("ip", "1.2.3.4")], "p1"⟩ "t" "p2" (by decide)
  exact ⟨h.1, h.2.2.1 (by decide)⟩

end AioproxyCheck
